import Mathlib

/-!
# PROXITY landing pages: `assets/js/main.js`

A shallow embedding of the five page initialisers of `main.js` and of the
event handlers they register, together with the properties of the handlers.

Modelling conventions.

* A DOM `classList` is a list of class names; `add` appends a name that is
  absent, `remove` deletes every occurrence, `contains` is membership.
* JavaScript strings are Lean strings (sequences of characters).
* JavaScript numbers are rationals: the arithmetic of the handlers is exact.
* A handler is a function from the state it reads and writes to the new
  state; a listener registered by an initialiser takes the event data as an
  extra argument.
-/

namespace Proxity

/-! ## DOM primitives -/

/-- A DOM token list (the `classList` of an element). -/
abbrev ClassList := List String

/-- The method `classList.contains(token)`. -/
def ClassList.contains (cl : ClassList) (token : String) : Bool :=
  decide (token ∈ cl)

/-- The method `classList.add(token)`: the token is appended when absent. -/
def ClassList.add (cl : ClassList) (token : String) : ClassList :=
  if token ∈ cl then cl else cl ++ [token]

/-- The method `classList.remove(token)`. -/
def ClassList.remove (cl : ClassList) (token : String) : ClassList :=
  cl.filter (fun c => decide (c ≠ token))

/-! ## `initStickyHeader` -/

/-- The state the scroll listener of `initStickyHeader` reads and writes: the
class list of the `.header` element and the closure variable `lastScroll`. -/
structure StickyHeader where
  headerClassList : ClassList
  lastScroll : ℚ
deriving DecidableEq

/-- The constant `scrollThreshold`. -/
def scrollThreshold : ℚ := 50

/-- The scroll listener of `initStickyHeader`, run with `window.scrollY = scrollY`. -/
def onScroll (st : StickyHeader) (scrollY : ℚ) : StickyHeader :=
  let currentScroll := scrollY
  let cl :=
    if currentScroll > scrollThreshold then st.headerClassList.add "scrolled"
    else st.headerClassList.remove "scrolled"
  { headerClassList := cl, lastScroll := currentScroll }

/-- The initialiser `initStickyHeader`: without a `.header` element nothing is
registered, otherwise the listener state starts with `lastScroll = 0`. -/
def initStickyHeader (header : Option ClassList) : Option StickyHeader :=
  match header with
  | none => none
  | some cl => some { headerClassList := cl, lastScroll := 0 }

/-- The header carries the `scrolled` flag. -/
def StickyHeader.scrolled (st : StickyHeader) : Bool :=
  st.headerClassList.contains "scrolled"

/-! ## `initMobileMenu` -/

/-- The state of the mobile menu: the class list of `.mobile-menu`, the value
of `body.style.overflow` and the markup of `.mobile-menu-toggle`. -/
structure MenuState where
  menuClassList : ClassList
  bodyOverflow : String
  toggleInnerHTML : String
deriving DecidableEq

/-- The template literal assigned to `toggle.innerHTML` by `openMobileMenu`
(the close glyph). -/
def closeGlyphMarkup : String :=
  "\n            <svg xmlns=\"http://www.w3.org/2000/svg\" fill=\"none\" viewBox=\"0 0 24 24\" stroke=\"currentColor\">\n                <path stroke-linecap=\"round\" stroke-linejoin=\"round\" stroke-width=\"2\" d=\"M6 18L18 6M6 6l12 12\" />\n            </svg>\n        "

/-- The template literal assigned to `toggle.innerHTML` by `closeMobileMenu`
(the menu glyph). -/
def menuGlyphMarkup : String :=
  "\n            <svg xmlns=\"http://www.w3.org/2000/svg\" fill=\"none\" viewBox=\"0 0 24 24\" stroke=\"currentColor\">\n                <path stroke-linecap=\"round\" stroke-linejoin=\"round\" stroke-width=\"2\" d=\"M4 6h16M4 12h16M4 18h16\" />\n            </svg>\n        "

/-- The function `openMobileMenu`. -/
def openMobileMenu (s : MenuState) : MenuState :=
  { menuClassList := s.menuClassList.add "open"
    bodyOverflow := "hidden"
    toggleInnerHTML := closeGlyphMarkup }

/-- The function `closeMobileMenu`. -/
def closeMobileMenu (s : MenuState) : MenuState :=
  { menuClassList := s.menuClassList.remove "open"
    bodyOverflow := ""
    toggleInnerHTML := menuGlyphMarkup }

/-- The menu carries the `open` flag. -/
def MenuState.isOpen (s : MenuState) : Bool :=
  s.menuClassList.contains "open"

/-- The click listener of the toggle. -/
def onToggleClick (s : MenuState) : MenuState :=
  let isOpen := s.menuClassList.contains "open"
  if isOpen then closeMobileMenu s else openMobileMenu s

/-- The click listener of a link inside the menu. -/
def onMenuLinkClick (s : MenuState) : MenuState :=
  closeMobileMenu s

/-- The keydown listener of the document, run with `e.key = key`. -/
def onKeydown (s : MenuState) (key : String) : MenuState :=
  if key = "Escape" ∧ s.menuClassList.contains "open" = true then closeMobileMenu s else s

/-- The events the listeners of `initMobileMenu` react to. -/
inductive MenuAction where
  | toggleClick
  | linkClick
  | keydown (key : String)
deriving DecidableEq

/-- One event dispatched to its listener. -/
def menuStep (s : MenuState) : MenuAction → MenuState
  | .toggleClick => onToggleClick s
  | .linkClick => onMenuLinkClick s
  | .keydown key => onKeydown s key

/-- Whether the listener of the event calls `openMobileMenu` or
`closeMobileMenu` in state `s`. -/
def ranOpenOrClose (s : MenuState) : MenuAction → Bool
  | .toggleClick => true
  | .linkClick => true
  | .keydown key => decide (key = "Escape" ∧ s.menuClassList.contains "open" = true)

/-- A sequence of events, dispatched in order. -/
def menuRun (s : MenuState) : List MenuAction → MenuState
  | [] => s
  | a :: as => menuRun (menuStep s a) as

/-- Whether some event of the sequence, dispatched in order from `s`, ran
`openMobileMenu` or `closeMobileMenu`. -/
def someRanOpenOrClose (s : MenuState) : List MenuAction → Bool
  | [] => false
  | a :: as => ranOpenOrClose s a || someRanOpenOrClose (menuStep s a) as

/-- The three fields of a menu state agree: either the menu is open, body
scroll is locked and the toggle shows the close glyph, or the menu is closed,
the overflow is empty and the toggle shows the menu glyph. -/
def MenuState.Consistent (s : MenuState) : Prop :=
  (s.isOpen = true ∧ s.bodyOverflow = "hidden" ∧ s.toggleInnerHTML = closeGlyphMarkup) ∨
  (s.isOpen = false ∧ s.bodyOverflow = "" ∧ s.toggleInnerHTML = menuGlyphMarkup)

/-! ## `initActiveNavLink` -/

/-- A navigation link (an element of class `nav-link`): the result of
`getAttribute('href')`, which is `null` (here `none`) when the attribute is
absent, and the class list. -/
structure NavLink where
  href : Option String
  classList : ClassList
deriving DecidableEq

/-- The conversion `ToString` applied to the argument of `endsWith`: `null`
becomes the string `"null"`. -/
def jsToString : Option String → String
  | none => "null"
  | some s => s

/-- The method `String.prototype.endsWith(searchString)` with the default end
position: the last `searchString.length` characters of `s` are compared with
`searchString`, and the result is `false` when `s` is shorter. -/
def endsWith (s : String) (searchString : String) : Bool :=
  let len := s.length
  let searchLength := searchString.length
  if len < searchLength then false
  else decide (s.data.drop (len - searchLength) = searchString.data)

/-- The strict equality `href === str` of the attribute value with a string. -/
def strictEq (href : Option String) (str : String) : Bool :=
  match href with
  | none => false
  | some h => decide (h = str)

/-- The condition of the `if` in the body of `navLinks.forEach`. -/
def linkMatches (href : Option String) (currentPath : String) : Bool :=
  strictEq href currentPath ||
  (strictEq href "/" && decide (currentPath = "/index.html")) ||
  (strictEq href "/index.html" && decide (currentPath = "/")) ||
  endsWith currentPath (jsToString href)

/-- The body of `navLinks.forEach` for one link. -/
def markLink (currentPath : String) (link : NavLink) : NavLink :=
  let href := link.href
  if linkMatches href currentPath then { link with classList := link.classList.add "active" }
  else link

/-- The function `initActiveNavLink`, run with `window.location.pathname =
currentPath` on the list of `.nav-link` elements. -/
def initActiveNavLink (currentPath : String) (navLinks : List NavLink) : List NavLink :=
  navLinks.map (markLink currentPath)

/-- The link carries the `active` flag. -/
def NavLink.active (link : NavLink) : Bool :=
  link.classList.contains "active"

/-! ## `initInteractiveBackground` -/

/-- The window metrics read by the background animation. -/
structure Viewport where
  innerWidth : ℚ
  innerHeight : ℚ
deriving DecidableEq

/-- One entry of `orbConfigs`. -/
structure OrbConfig where
  sensitivity : ℚ
deriving DecidableEq

/-- The constant `orbConfigs`. -/
def orbConfigs : List OrbConfig :=
  [ { sensitivity := 4 / 100 }, { sensitivity := 6 / 100 }, { sensitivity := 25 / 1000 } ]

/-- The expression `orbConfigs[index] || orbConfigs[0]`: an index outside the
array reads `undefined`, which is falsy, and every entry is an object, which
is truthy. -/
def orbConfigAt (index : Nat) : OrbConfig :=
  match orbConfigs[index]? with
  | some config => config
  | none => orbConfigs.get ⟨0, by decide⟩

/-- The two custom properties of a `.gradient-orb` element, as lengths in
pixels; `none` is a property that has not been set. -/
structure Orb where
  mouseXVar : Option ℚ
  mouseYVar : Option ℚ
deriving DecidableEq

/-- The closure variables of `initInteractiveBackground` together with the
orbs the animation writes to. -/
structure Background where
  mouseX : ℚ
  mouseY : ℚ
  targetX : ℚ
  targetY : ℚ
  orbs : List Orb
deriving DecidableEq

/-- The `mousemove` listener, run with the pointer at `(clientX, clientY)`. -/
def onMouseMove (b : Background) (clientX clientY : ℚ) : Background :=
  { b with targetX := clientX, targetY := clientY }

/-- The `mouseleave` listener. -/
def onMouseLeave (vp : Viewport) (b : Background) : Background :=
  { b with targetX := vp.innerWidth / 2, targetY := vp.innerHeight / 2 }

/-- The callback of `orbs.forEach((orb, index) => ...)` in `animate`, applied
from index `index` on. -/
def applyOrbs (deltaX deltaY : ℚ) : Nat → List Orb → List Orb
  | _, [] => []
  | index, _ :: rest =>
    let config := orbConfigAt index
    let moveX := deltaX * config.sensitivity
    let moveY := deltaY * config.sensitivity
    { mouseXVar := some moveX, mouseYVar := some moveY } :: applyOrbs deltaX deltaY (index + 1) rest

/-- One run of the body of `animate` (one animation frame). -/
def animate (vp : Viewport) (b : Background) : Background :=
  let mouseX := b.mouseX + (b.targetX - b.mouseX) * (3 / 100)
  let mouseY := b.mouseY + (b.targetY - b.mouseY) * (3 / 100)
  let centerX := vp.innerWidth / 2
  let centerY := vp.innerHeight / 2
  let deltaX := mouseX - centerX
  let deltaY := mouseY - centerY
  { mouseX := mouseX
    mouseY := mouseY
    targetX := b.targetX
    targetY := b.targetY
    orbs := applyOrbs deltaX deltaY 0 b.orbs }

/-- The loop `animate(); requestAnimationFrame(animate); ...` cut after `n`
frames, with no pointer event and no resize between the frames. -/
def animateN (vp : Viewport) : Nat → Background → Background
  | 0, b => b
  | n + 1, b => animateN vp n (animate vp b)

/-- The initialiser `initInteractiveBackground`: inert without orbs, otherwise
the tracked position and the target start at the viewport centre and the
first frame runs at once. -/
def initInteractiveBackground (vp : Viewport) (orbs : List Orb) : Option Background :=
  if orbs.length = 0 then none
  else
    let mouseX := vp.innerWidth / 2
    let mouseY := vp.innerHeight / 2
    some (animate vp
      { mouseX := mouseX, mouseY := mouseY, targetX := mouseX, targetY := mouseY, orbs := orbs })

/-- The offset written for the orb at index `i`, when both properties are set. -/
def Background.offset (b : Background) (i : Nat) : Option (ℚ × ℚ) :=
  match b.orbs[i]? with
  | some { mouseXVar := some x, mouseYVar := some y } => some (x, y)
  | _ => none

/-- The offsets written for the orb at index `i` converge to `(lx, ly)` as the
number of frames grows: from some frame on both properties are set and lie
within any given distance of the limit. -/
def OffsetsConverge (vp : Viewport) (b : Background) (i : Nat) (lx ly : ℚ) : Prop :=
  ∀ ε : ℚ, 0 < ε → ∃ N : Nat, ∀ n : Nat, N ≤ n →
    ∃ x y : ℚ, (animateN vp n b).offset i = some (x, y) ∧ |x - lx| < ε ∧ |y - ly| < ε

/-! ## `initScrollAnimations` -/

/-- An entry passed to the callback of the `IntersectionObserver`; elements are
named by numbers. -/
structure IntersectionEntry where
  target : Nat
  isIntersecting : Bool
deriving DecidableEq

/-- The state the observer callback reads and writes: the class list of every
element and the set of elements the observer watches. -/
structure RevealState where
  classList : Nat → ClassList
  observed : List Nat

/-- The method `observer.observe(el)`. -/
def observe (s : RevealState) (el : Nat) : RevealState :=
  { s with observed := if el ∈ s.observed then s.observed else s.observed ++ [el] }

/-- The method `observer.unobserve(el)`. -/
def unobserve (s : RevealState) (el : Nat) : RevealState :=
  { s with observed := s.observed.filter (fun e => decide (e ≠ el)) }

/-- The body of `entries.forEach` in the observer callback. -/
def onEntry (s : RevealState) (entry : IntersectionEntry) : RevealState :=
  if entry.isIntersecting then
    let s1 : RevealState :=
      { s with classList := fun e =>
          if e = entry.target then (s.classList e).add "visible" else s.classList e }
    unobserve s1 entry.target
  else s

/-- The observer callback, run on a list of entries. -/
def observerCallback (s : RevealState) (entries : List IntersectionEntry) : RevealState :=
  entries.foldl onEntry s

/-- A sequence of observer callbacks, run in order. -/
def runCallbacks (s : RevealState) (callbacks : List (List IntersectionEntry)) : RevealState :=
  callbacks.foldl observerCallback s

/-- The function `initScrollAnimations`: the observer starts watching every
element matched by `.fade-in-up, .stagger-children`. -/
def initScrollAnimations (classList : Nat → ClassList) (els : List Nat) : RevealState :=
  els.foldl observe { classList := classList, observed := [] }

/-- The element carries the `visible` flag. -/
def RevealState.visible (s : RevealState) (el : Nat) : Bool :=
  (s.classList el).contains "visible"

/-! ## Lemmas on class lists -/

theorem ClassList.contains_add (cl : ClassList) (t : String) :
    (cl.add t).contains t = true := by
  unfold ClassList.contains ClassList.add
  by_cases h : t ∈ cl <;> simp [h]

theorem ClassList.contains_remove (cl : ClassList) (t : String) :
    (cl.remove t).contains t = false := by
  unfold ClassList.contains ClassList.remove
  simp

theorem ClassList.add_of_contains (cl : ClassList) (t : String)
    (h : cl.contains t = true) : cl.add t = cl := by
  unfold ClassList.contains at h
  unfold ClassList.add
  simp at h
  simp [h]

theorem ClassList.add_add (cl : ClassList) (t : String) :
    (cl.add t).add t = cl.add t :=
  ClassList.add_of_contains _ _ (ClassList.contains_add cl t)

theorem ClassList.remove_remove (cl : ClassList) (t : String) :
    (cl.remove t).remove t = cl.remove t := by
  unfold ClassList.remove
  simp [List.filter_filter]

theorem ClassList.contains_add_of_contains (cl : ClassList) (t u : String)
    (h : cl.contains u = true) : (cl.add t).contains u = true := by
  unfold ClassList.contains at *
  unfold ClassList.add
  simp at h
  by_cases ht : t ∈ cl <;> simp [ht, h]

theorem closeGlyph_ne_menuGlyph : closeGlyphMarkup ≠ menuGlyphMarkup := by
  simp [closeGlyphMarkup, menuGlyphMarkup]

/-! ## Sticky header -/

/-- C1. After the scroll listener runs with `window.scrollY = s`, the header
carries `scrolled` exactly when `s > 50`, whatever the state before; the flag
after the listener does not depend on the state before; and a scroll event at
offset 100 followed by one at offset 10 leaves the flag cleared. -/
theorem stickyHeader_flag_iff :
    (∀ (st : StickyHeader) (s : ℚ), (onScroll st s).scrolled = true ↔ s > 50) ∧
    (∀ (st st' : StickyHeader) (s : ℚ), (onScroll st s).scrolled = (onScroll st' s).scrolled) ∧
    (∀ st : StickyHeader, (onScroll (onScroll st 100) 10).scrolled = false) := by
  have key : ∀ (st : StickyHeader) (s : ℚ), (onScroll st s).scrolled = decide (s > 50) := by
    intro st s
    unfold onScroll StickyHeader.scrolled scrollThreshold
    by_cases h : s > 50
    · simp [h, ClassList.contains_add]
    · simp [h, ClassList.contains_remove]
  refine ⟨?_, ?_, ?_⟩
  · intro st s
    rw [key]
    simp
  · intro st st' s
    rw [key, key]
  · intro st
    rw [key]
    decide

/-! ## Mobile menu -/

theorem consistent_open (s : MenuState) : (openMobileMenu s).Consistent := by
  left
  exact ⟨ClassList.contains_add _ _, rfl, rfl⟩

theorem consistent_close (s : MenuState) : (closeMobileMenu s).Consistent := by
  right
  exact ⟨ClassList.contains_remove _ _, rfl, rfl⟩

theorem consistent_step (s : MenuState) (a : MenuAction)
    (h : s.Consistent ∨ ranOpenOrClose s a = true) : (menuStep s a).Consistent := by
  cases a with
  | toggleClick =>
    show (onToggleClick s).Consistent
    unfold onToggleClick
    by_cases ho : s.menuClassList.contains "open" = true
    · simp [ho, consistent_close]
    · simp [ho, consistent_open]
  | linkClick => exact consistent_close s
  | keydown key =>
    show (onKeydown s key).Consistent
    unfold onKeydown
    by_cases hk : key = "Escape" ∧ s.menuClassList.contains "open" = true
    · rw [if_pos hk]
      exact consistent_close s
    · rw [if_neg hk]
      rcases h with h | h
      · exact h
      · simp [ranOpenOrClose, hk] at h

theorem consistent_run (as : List MenuAction) :
    ∀ s : MenuState, s.Consistent ∨ someRanOpenOrClose s as = true → (menuRun s as).Consistent := by
  induction as with
  | nil =>
    intro s h
    rcases h with h | h
    · exact h
    · simp [someRanOpenOrClose] at h
  | cons a as ih =>
    intro s h
    unfold menuRun
    apply ih
    rcases h with h | h
    · exact Or.inl (consistent_step s a (Or.inl h))
    · simp only [someRanOpenOrClose, Bool.or_eq_true] at h
      rcases h with h | h
      · exact Or.inl (consistent_step s a (Or.inr h))
      · exact Or.inr h

/-- C2 (as stated, refuted). From a closed menu whose body overflow is
`scroll` and whose toggle markup is `Menu`, `openMobileMenu` followed by
`closeMobileMenu` returns neither the overflow nor the markup to its initial
value. -/
theorem roundtrip_fails_on_page_values :
    (closeMobileMenu (openMobileMenu
        { menuClassList := [], bodyOverflow := "scroll", toggleInnerHTML := "Menu" })).bodyOverflow
      ≠ "scroll" ∧
    (closeMobileMenu (openMobileMenu
        { menuClassList := [], bodyOverflow := "scroll", toggleInnerHTML := "Menu" })).toggleInnerHTML
      ≠ "Menu" := by
  constructor
  · simp [closeMobileMenu]
  · simp [closeMobileMenu, menuGlyphMarkup]

/-- C2 (amended). For every initial menu state, `openMobileMenu` followed by
`closeMobileMenu` leaves the body overflow empty and the toggle markup equal
to the menu glyph; hence it returns both to their initial values whenever the
initial overflow is empty and the initial markup is the menu glyph. -/
theorem menu_roundtrip (s : MenuState) :
    (closeMobileMenu (openMobileMenu s)).bodyOverflow = "" ∧
    (closeMobileMenu (openMobileMenu s)).toggleInnerHTML = menuGlyphMarkup ∧
    (s.bodyOverflow = "" → s.toggleInnerHTML = menuGlyphMarkup →
      (closeMobileMenu (openMobileMenu s)).bodyOverflow = s.bodyOverflow ∧
      (closeMobileMenu (openMobileMenu s)).toggleInnerHTML = s.toggleInnerHTML) := by
  refine ⟨rfl, rfl, ?_⟩
  intro h1 h2
  rw [h1, h2]
  exact ⟨rfl, rfl⟩

/-- Witness of C2 (amended), at the closed menu written by `closeMobileMenu`. -/
theorem menu_roundtrip_witness :
    (closeMobileMenu (openMobileMenu
        { menuClassList := ["mobile-menu"], bodyOverflow := "",
          toggleInnerHTML := menuGlyphMarkup })).bodyOverflow = "" ∧
    (closeMobileMenu (openMobileMenu
        { menuClassList := ["mobile-menu"], bodyOverflow := "",
          toggleInnerHTML := menuGlyphMarkup })).toggleInnerHTML = menuGlyphMarkup :=
  (menu_roundtrip { menuClassList := ["mobile-menu"], bodyOverflow := "",
                    toggleInnerHTML := menuGlyphMarkup }).2.2 rfl rfl

/-- C3. The keydown listener changes the state only when the key is `Escape`
and the menu is open, and then the new state is the result of
`closeMobileMenu`; for `Escape` on a closed menu and for every other key the
state (open flag, body overflow, toggle markup) is unchanged. -/
theorem keydown_frame (s : MenuState) (key : String) :
    (onKeydown s key ≠ s → key = "Escape" ∧ s.isOpen = true) ∧
    (key = "Escape" → s.isOpen = true → onKeydown s key = closeMobileMenu s) ∧
    (key = "Escape" → s.isOpen = false → onKeydown s key = s) ∧
    (key ≠ "Escape" → onKeydown s key = s) := by
  unfold onKeydown MenuState.isOpen
  refine ⟨?_, ?_, ?_, ?_⟩
  · intro h
    by_cases hk : key = "Escape" ∧ s.menuClassList.contains "open" = true
    · exact hk
    · rw [if_neg hk] at h
      exact absurd rfl h
  · intro h1 h2
    rw [if_pos ⟨h1, h2⟩]
  · intro _ h2
    simp [h2]
  · intro h1
    simp [h1]

/-- Witness of C3: `Escape` on an open menu closes it, `Escape` on a closed menu
and `Enter` on an open menu change nothing. -/
theorem keydown_frame_witness :
    onKeydown { menuClassList := ["open"], bodyOverflow := "hidden",
                toggleInnerHTML := closeGlyphMarkup } "Escape"
      = closeMobileMenu { menuClassList := ["open"], bodyOverflow := "hidden",
                          toggleInnerHTML := closeGlyphMarkup } ∧
    onKeydown { menuClassList := [], bodyOverflow := "", toggleInnerHTML := menuGlyphMarkup }
        "Escape"
      = { menuClassList := [], bodyOverflow := "", toggleInnerHTML := menuGlyphMarkup } ∧
    onKeydown { menuClassList := ["open"], bodyOverflow := "hidden",
                toggleInnerHTML := closeGlyphMarkup } "Enter"
      = { menuClassList := ["open"], bodyOverflow := "hidden",
          toggleInnerHTML := closeGlyphMarkup } :=
  ⟨(keydown_frame _ "Escape").2.1 rfl (by decide),
   (keydown_frame _ "Escape").2.2.1 rfl (by decide),
   (keydown_frame _ "Enter").2.2.2 (by decide)⟩

/-- C4. The functions `openMobileMenu` and `closeMobileMenu` are idempotent on
the whole menu state (open flag, body overflow, toggle markup). -/
theorem menu_idempotent (s : MenuState) :
    openMobileMenu (openMobileMenu s) = openMobileMenu s ∧
    closeMobileMenu (closeMobileMenu s) = closeMobileMenu s := by
  constructor
  · simp [openMobileMenu, ClassList.add_add]
  · simp [closeMobileMenu, ClassList.remove_remove]

/-- C10. After a sequence of menu events in which some listener ran
`openMobileMenu` or `closeMobileMenu`, the menu is open iff the body overflow
is `hidden` iff the toggle markup is the close glyph, and a closed menu has
empty overflow and the menu glyph; moreover every toggle click flips the open
flag. -/
theorem menu_invariant (s : MenuState) (as : List MenuAction)
    (h : someRanOpenOrClose s as = true) :
    ((menuRun s as).isOpen = true ↔ (menuRun s as).bodyOverflow = "hidden") ∧
    ((menuRun s as).isOpen = true ↔ (menuRun s as).toggleInnerHTML = closeGlyphMarkup) ∧
    ((menuRun s as).isOpen = false →
      (menuRun s as).bodyOverflow = "" ∧ (menuRun s as).toggleInnerHTML = menuGlyphMarkup) ∧
    (∀ t : MenuState, (menuStep t .toggleClick).isOpen = !t.isOpen) := by
  have hc := consistent_run as s (Or.inr h)
  refine ⟨?_, ?_, ?_, ?_⟩
  · rcases hc with ⟨h1, h2, _⟩ | ⟨h1, h2, _⟩
    · simp [h1, h2]
    · simp [h1, h2]
  · rcases hc with ⟨h1, _, h3⟩ | ⟨h1, _, h3⟩
    · simp [h1, h3]
    · simp [h1, h3, Ne.symm closeGlyph_ne_menuGlyph]
  · intro hcl
    rcases hc with ⟨h1, _, _⟩ | ⟨_, h2, h3⟩
    · rw [h1] at hcl
      exact absurd hcl (by decide)
    · exact ⟨h2, h3⟩
  · intro t
    show (onToggleClick t).isOpen = !t.isOpen
    unfold onToggleClick MenuState.isOpen
    by_cases ho : t.menuClassList.contains "open" = true
    · simp [ho, closeMobileMenu, ClassList.contains_remove]
    · simp [ho, openMobileMenu, ClassList.contains_add]

/-- Witness of C10: a toggle click, a key press and a link click from a page
whose toggle markup and overflow were set by the page itself. -/
theorem menu_invariant_witness :
    (menuRun { menuClassList := ["mobile-menu"], bodyOverflow := "auto", toggleInnerHTML := "Menu" }
        [.toggleClick, .keydown "a", .linkClick]).isOpen = false ∧
    (menuRun { menuClassList := ["mobile-menu"], bodyOverflow := "auto", toggleInnerHTML := "Menu" }
        [.toggleClick, .keydown "a", .linkClick]).bodyOverflow = "" :=
  ⟨by decide,
   ((menu_invariant { menuClassList := ["mobile-menu"], bodyOverflow := "auto",
                      toggleInnerHTML := "Menu" }
      [.toggleClick, .keydown "a", .linkClick] (by decide)).2.2.1 (by decide)).1⟩

/-! ## Active navigation link -/

theorem drop_eq_iff_suffix (l t : List Char) :
    (if l.length < t.length then false else decide (l.drop (l.length - t.length) = t)) = true ↔
      ∃ pre : List Char, l = pre ++ t := by
  constructor
  · intro h
    by_cases hl : l.length < t.length
    · rw [if_pos hl] at h
      exact absurd h (by decide)
    · rw [if_neg hl] at h
      have h2 : l.drop (l.length - t.length) = t := of_decide_eq_true h
      refine ⟨l.take (l.length - t.length), ?_⟩
      have h3 := List.take_append_drop (l.length - t.length) l
      rw [h2] at h3
      exact h3.symm
  · rintro ⟨pre, rfl⟩
    have hnot : ¬ (pre ++ t).length < t.length := by
      rw [List.length_append]
      omega
    rw [if_neg hnot]
    apply decide_eq_true
    rw [List.length_append, Nat.add_sub_cancel]
    exact List.drop_left pre t

theorem endsWith_iff (s t : String) : endsWith s t = true ↔ ∃ pre : String, s = pre ++ t := by
  have h := drop_eq_iff_suffix s.data t.data
  have e : endsWith s t =
      (if s.data.length < t.data.length then false
        else decide (s.data.drop (s.data.length - t.data.length) = t.data)) := rfl
  rw [e, h]
  constructor
  · rintro ⟨pre, hp⟩
    refine ⟨⟨pre⟩, ?_⟩
    apply String.ext
    rw [String.data_append]
    exact hp
  · rintro ⟨pre, hp⟩
    refine ⟨pre.data, ?_⟩
    rw [hp, String.data_append]

theorem linkMatches_iff (h p : String) :
    linkMatches (some h) p = true ↔
      (h = p ∨ (h = "/" ∧ p = "/index.html") ∨ (h = "/index.html" ∧ p = "/") ∨
        ∃ pre : String, p = pre ++ h) := by
  unfold linkMatches strictEq jsToString
  simp only [Bool.or_eq_true, Bool.and_eq_true, decide_eq_true_eq, endsWith_iff]
  tauto

/-- C5. For every current path `p` and every navigation link with href `h`,
the condition under which `initActiveNavLink` runs `classList.add('active')`
on the link holds iff `h = p`, or
`h` is `/` and `p` is `/index.html`, or `h` is `/index.html` and `p` is `/`,
or `p` ends with `h`; a link without the flag carries it afterwards exactly in
that case, and every other link is left as it was. In particular `/` is
marked on `/index.html` and `/index.html` is marked on `/`. -/
theorem activeLink_iff (p h : String) (navLinks : List NavLink) (i : Nat) (link : NavLink)
    (hi : navLinks[i]? = some link) (hh : link.href = some h) :
    (linkMatches link.href p = true ↔
      (h = p ∨ (h = "/" ∧ p = "/index.html") ∨ (h = "/index.html" ∧ p = "/") ∨
        ∃ pre : String, p = pre ++ h)) ∧
    (linkMatches link.href p = true →
      (initActiveNavLink p navLinks)[i]? =
        some { link with classList := link.classList.add "active" }) ∧
    (linkMatches link.href p = false → (initActiveNavLink p navLinks)[i]? = some link) ∧
    (link.active = false →
      (((initActiveNavLink p navLinks)[i]?).map NavLink.active = some true ↔
        (h = p ∨ (h = "/" ∧ p = "/index.html") ∨ (h = "/index.html" ∧ p = "/") ∨
          ∃ pre : String, p = pre ++ h))) ∧
    linkMatches (some "/") "/index.html" = true ∧
    linkMatches (some "/index.html") "/" = true := by
  have hget : (initActiveNavLink p navLinks)[i]? = some (markLink p link) := by
    unfold initActiveNavLink
    rw [List.getElem?_map, hi]
    rfl
  have hm := linkMatches_iff h p
  rw [← hh] at hm
  refine ⟨hm, ?_, ?_, ?_, ?_, ?_⟩
  · intro hx
    rw [hget]
    unfold markLink
    simp [hx]
  · intro hx
    rw [hget]
    unfold markLink
    simp [hx]
  · intro hact
    rw [← hm, hget]
    unfold markLink
    by_cases hx : linkMatches link.href p = true
    · simp [hx, NavLink.active, ClassList.contains_add]
    · simp only [hx, Option.map_some']
      simp [hact]
  · rw [linkMatches_iff]
    right; left
    exact ⟨rfl, rfl⟩
  · rw [linkMatches_iff]
    right; right; left
    exact ⟨rfl, rfl⟩

/-- Witness of C5: on `/pricing.html` the link to `/pricing.html`, second in
the navigation, is the one marked. -/
theorem activeLink_iff_witness :
    ((initActiveNavLink "/pricing.html"
        [ { href := some "/", classList := ["nav-link"] },
          { href := some "/pricing.html", classList := ["nav-link"] } ])[1]?).map NavLink.active
      = some true :=
  ((activeLink_iff "/pricing.html" "/pricing.html"
      [ { href := some "/", classList := ["nav-link"] },
        { href := some "/pricing.html", classList := ["nav-link"] } ] 1
      { href := some "/pricing.html", classList := ["nav-link"] } rfl rfl).2.2.2.1
    (by decide)).2 (Or.inl rfl)

/-- C9. On the current path `/api/docs`, a link with href `/docs` and a link
with href `/api/docs` are both marked active in the same run of
`initActiveNavLink`, although their hrefs differ; the first is marked by the
suffix rule alone. -/
theorem activeLink_multi_match :
    (initActiveNavLink "/api/docs"
        [ { href := some "/docs", classList := ["nav-link"] },
          { href := some "/api/docs", classList := ["nav-link"] } ]).map NavLink.active
      = [true, true] ∧
    strictEq (some "/docs") "/api/docs" = false ∧
    endsWith "/api/docs" "/docs" = true ∧
    endsWith "/api/docs" "/api/docs" = true := by
  refine ⟨?_, ?_, ?_, ?_⟩ <;> decide

/-! ## Interactive background -/

theorem geometric_small (d ε : ℚ) (hε : 0 < ε) :
    ∃ N : Nat, ∀ n : Nat, N ≤ n → |(97 / 100 : ℚ) ^ n * d| < ε := by
  have hr0 : (0 : ℚ) ≤ 97 / 100 := by norm_num
  have hr1 : (97 / 100 : ℚ) ≤ 1 := by norm_num
  by_cases hd : d = 0
  · refine ⟨0, fun n _ => ?_⟩
    rw [hd, mul_zero, abs_zero]
    exact hε
  · have hpos : 0 < |d| := abs_pos.mpr hd
    obtain ⟨N, hN⟩ := exists_pow_lt_of_lt_one (div_pos hε hpos) (by norm_num : (97 / 100 : ℚ) < 1)
    refine ⟨N, fun n hn => ?_⟩
    rw [abs_mul, abs_of_nonneg (pow_nonneg hr0 n)]
    have h1 : (97 / 100 : ℚ) ^ n ≤ (97 / 100 : ℚ) ^ N := pow_le_pow_of_le_one hr0 hr1 hn
    calc (97 / 100 : ℚ) ^ n * |d| ≤ (97 / 100 : ℚ) ^ N * |d| :=
          mul_le_mul_of_nonneg_right h1 hpos.le
      _ < ε / |d| * |d| := mul_lt_mul_of_pos_right hN hpos
      _ = ε := div_mul_cancel₀ ε hpos.ne'

theorem geometric_small_pair (d e ε : ℚ) (hε : 0 < ε) :
    ∃ N : Nat, ∀ n : Nat, N ≤ n →
      |(97 / 100 : ℚ) ^ n * d| < ε ∧ |(97 / 100 : ℚ) ^ n * e| < ε := by
  obtain ⟨N1, h1⟩ := geometric_small d ε hε
  obtain ⟨N2, h2⟩ := geometric_small e ε hε
  exact ⟨max N1 N2, fun n hn =>
    ⟨h1 n (le_trans (le_max_left _ _) hn), h2 n (le_trans (le_max_right _ _) hn)⟩⟩

theorem animateN_target (vp : Viewport) (n : Nat) :
    ∀ b : Background, (animateN vp n b).targetX = b.targetX ∧
      (animateN vp n b).targetY = b.targetY := by
  induction n with
  | zero => intro b; exact ⟨rfl, rfl⟩
  | succ n ih =>
    intro b
    show (animateN vp n (animate vp b)).targetX = _ ∧ (animateN vp n (animate vp b)).targetY = _
    exact ⟨(ih _).1, (ih _).2⟩

theorem animateN_error (vp : Viewport) (n : Nat) :
    ∀ b : Background,
      (animateN vp n b).mouseX - b.targetX = (97 / 100 : ℚ) ^ n * (b.mouseX - b.targetX) ∧
      (animateN vp n b).mouseY - b.targetY = (97 / 100 : ℚ) ^ n * (b.mouseY - b.targetY) := by
  induction n with
  | zero => intro b; simp [animateN]
  | succ n ih =>
    intro b
    have h := ih (animate vp b)
    have hx : (animate vp b).mouseX = b.mouseX + (b.targetX - b.mouseX) * (3 / 100) := rfl
    have hy : (animate vp b).mouseY = b.mouseY + (b.targetY - b.mouseY) * (3 / 100) := rfl
    have htx : (animate vp b).targetX = b.targetX := rfl
    have hty : (animate vp b).targetY = b.targetY := rfl
    rw [hx, hy, htx, hty] at h
    show (animateN vp n (animate vp b)).mouseX - _ = _ ∧ (animateN vp n (animate vp b)).mouseY - _ = _
    constructor
    · rw [h.1, pow_succ]; ring
    · rw [h.2, pow_succ]; ring

theorem animateN_succ_last (vp : Viewport) (n : Nat) :
    ∀ b : Background, animateN vp (n + 1) b = animate vp (animateN vp n b) := by
  induction n with
  | zero => intro b; rfl
  | succ n ih =>
    intro b
    show animateN vp (n + 1) (animate vp b) = animate vp (animateN vp n (animate vp b))
    exact ih _

theorem applyOrbs_length (dx dy : ℚ) (orbs : List Orb) :
    ∀ k : Nat, (applyOrbs dx dy k orbs).length = orbs.length := by
  induction orbs with
  | nil => intro k; rfl
  | cons o rest ih =>
    intro k
    simp [applyOrbs, ih]

theorem applyOrbs_getElem? (dx dy : ℚ) (orbs : List Orb) :
    ∀ (k i : Nat), i < orbs.length →
      (applyOrbs dx dy k orbs)[i]? =
        some { mouseXVar := some (dx * (orbConfigAt (k + i)).sensitivity),
               mouseYVar := some (dy * (orbConfigAt (k + i)).sensitivity) } := by
  induction orbs with
  | nil => intro k i hi; simp at hi
  | cons o rest ih =>
    intro k i hi
    cases i with
    | zero => simp [applyOrbs]
    | succ i =>
      simp only [applyOrbs, List.getElem?_cons_succ]
      rw [ih (k + 1) i (by simpa using hi)]
      have e : k + 1 + i = k + (i + 1) := by omega
      rw [e]

theorem animateN_orbs_length (vp : Viewport) (n : Nat) :
    ∀ b : Background, (animateN vp n b).orbs.length = b.orbs.length := by
  induction n with
  | zero => intro b; rfl
  | succ n ih =>
    intro b
    show (animateN vp n (animate vp b)).orbs.length = _
    rw [ih]
    exact applyOrbs_length _ _ _ 0

theorem offset_after_frame (vp : Viewport) (b : Background) (n i : Nat) (hi : i < b.orbs.length) :
    (animateN vp (n + 1) b).offset i =
      some (((animateN vp (n + 1) b).mouseX - vp.innerWidth / 2) * (orbConfigAt i).sensitivity,
            ((animateN vp (n + 1) b).mouseY - vp.innerHeight / 2) * (orbConfigAt i).sensitivity) := by
  rw [animateN_succ_last]
  have hlen : i < (animateN vp n b).orbs.length := by rw [animateN_orbs_length]; exact hi
  unfold Background.offset
  have h := applyOrbs_getElem?
    ((animateN vp n b).mouseX + ((animateN vp n b).targetX - (animateN vp n b).mouseX) * (3 / 100)
      - vp.innerWidth / 2)
    ((animateN vp n b).mouseY + ((animateN vp n b).targetY - (animateN vp n b).mouseY) * (3 / 100)
      - vp.innerHeight / 2)
    (animateN vp n b).orbs 0 i hlen
  rw [Nat.zero_add] at h
  show (match (applyOrbs _ _ 0 (animateN vp n b).orbs)[i]? with
        | some { mouseXVar := some x, mouseYVar := some y } => some (x, y)
        | _ => none) = _
  rw [h]
  rfl

theorem offsets_converge (vp : Viewport) (b : Background) (i : Nat) (hi : i < b.orbs.length) :
    OffsetsConverge vp b i
      ((orbConfigAt i).sensitivity * (b.targetX - vp.innerWidth / 2))
      ((orbConfigAt i).sensitivity * (b.targetY - vp.innerHeight / 2)) := by
  intro ε hε
  obtain ⟨N, hN⟩ := geometric_small_pair
    ((b.mouseX - b.targetX) * (orbConfigAt i).sensitivity)
    ((b.mouseY - b.targetY) * (orbConfigAt i).sensitivity) ε hε
  refine ⟨N + 1, fun n hn => ?_⟩
  obtain ⟨m, rfl⟩ : ∃ m, n = m + 1 := ⟨n - 1, by omega⟩
  refine ⟨_, _, offset_after_frame vp b m i hi, ?_, ?_⟩
  · have h := (hN (m + 1) (by omega)).1
    have e := (animateN_error vp (m + 1) b).1
    have e2 : ((animateN vp (m + 1) b).mouseX - vp.innerWidth / 2) * (orbConfigAt i).sensitivity
        - (orbConfigAt i).sensitivity * (b.targetX - vp.innerWidth / 2)
        = (97 / 100 : ℚ) ^ (m + 1) * ((b.mouseX - b.targetX) * (orbConfigAt i).sensitivity) := by
      rw [← mul_assoc, ← e]; ring
    rw [e2]
    exact h
  · have h := (hN (m + 1) (by omega)).2
    have e := (animateN_error vp (m + 1) b).2
    have e2 : ((animateN vp (m + 1) b).mouseY - vp.innerHeight / 2) * (orbConfigAt i).sensitivity
        - (orbConfigAt i).sensitivity * (b.targetY - vp.innerHeight / 2)
        = (97 / 100 : ℚ) ^ (m + 1) * ((b.mouseY - b.targetY) * (orbConfigAt i).sensitivity) := by
      rw [← mul_assoc, ← e]; ring
    rw [e2]
    exact h

theorem orbConfigAt_fallback (i : Nat) (hi : 3 ≤ i) : (orbConfigAt i).sensitivity = 4 / 100 := by
  unfold orbConfigAt
  have h : orbConfigs[i]? = none := by
    apply List.getElem?_eq_none
    simpa [orbConfigs] using hi
  rw [h]
  rfl

/-- C6. In exact arithmetic, for every initial tracked position and every
pointer target held constant, the frames of `animate` bring the tracked
position within any `ε > 0` of the target in both coordinates from some frame
count on, and the target itself is left as it was. -/
theorem parallax_converges (vp : Viewport) (b : Background) (ε : ℚ) (hε : 0 < ε) :
    ∃ N : Nat, ∀ n : Nat, N ≤ n →
      |(animateN vp n b).mouseX - b.targetX| < ε ∧
      |(animateN vp n b).mouseY - b.targetY| < ε ∧
      (animateN vp n b).targetX = b.targetX ∧ (animateN vp n b).targetY = b.targetY := by
  obtain ⟨N, hN⟩ := geometric_small_pair (b.mouseX - b.targetX) (b.mouseY - b.targetY) ε hε
  refine ⟨N, fun n hn => ?_⟩
  have e := animateN_error vp n b
  rw [e.1, e.2]
  exact ⟨(hN n hn).1, (hN n hn).2, (animateN_target vp n b).1, (animateN_target vp n b).2⟩

/-- Witness of C6: a 1000 by 800 viewport, tracked position at the centre,
pointer target at `(600, 400)`, one orb, tolerance one pixel. -/
theorem parallax_converges_witness :
    ∃ N : Nat, ∀ n : Nat, N ≤ n →
      |(animateN { innerWidth := 1000, innerHeight := 800 } n
          { mouseX := 500, mouseY := 400, targetX := 600, targetY := 400,
            orbs := [{ mouseXVar := none, mouseYVar := none }] }).mouseX - 600| < 1 ∧
      |(animateN { innerWidth := 1000, innerHeight := 800 } n
          { mouseX := 500, mouseY := 400, targetX := 600, targetY := 400,
            orbs := [{ mouseXVar := none, mouseYVar := none }] }).mouseY - 400| < 1 ∧
      (animateN { innerWidth := 1000, innerHeight := 800 } n
          { mouseX := 500, mouseY := 400, targetX := 600, targetY := 400,
            orbs := [{ mouseXVar := none, mouseYVar := none }] }).targetX = 600 ∧
      (animateN { innerWidth := 1000, innerHeight := 800 } n
          { mouseX := 500, mouseY := 400, targetX := 600, targetY := 400,
            orbs := [{ mouseXVar := none, mouseYVar := none }] }).targetY = 400 :=
  parallax_converges { innerWidth := 1000, innerHeight := 800 }
    { mouseX := 500, mouseY := 400, targetX := 600, targetY := 400,
      orbs := [{ mouseXVar := none, mouseYVar := none }] } 1 (by norm_num)

/-- C7. In exact arithmetic, with the viewport and the pointer target held
constant, the offset written for the orb at index `i` converges to the
sensitivity of the orb times the distance of the target from the viewport
centre, where the sensitivities are 0.04, 0.06, 0.025 and 0.04 for every index
from 3 on. With the target 100 pixels to the right of the centre the limits
are `(4, 0)`, `(6, 0)` and `(2.5, 0)` for the orbs 0, 1 and 2, and with the
target at the centre the limit is `(0, 0)` for every orb. -/
theorem parallax_offsets (vp : Viewport) (b : Background) :
    ((orbConfigAt 0).sensitivity = 4 / 100 ∧ (orbConfigAt 1).sensitivity = 6 / 100 ∧
      (orbConfigAt 2).sensitivity = 25 / 1000 ∧
      ∀ i : Nat, 3 ≤ i → (orbConfigAt i).sensitivity = 4 / 100) ∧
    (∀ i : Nat, i < b.orbs.length →
      OffsetsConverge vp b i
        ((orbConfigAt i).sensitivity * (b.targetX - vp.innerWidth / 2))
        ((orbConfigAt i).sensitivity * (b.targetY - vp.innerHeight / 2))) ∧
    (b.targetX = vp.innerWidth / 2 + 100 → b.targetY = vp.innerHeight / 2 →
      (0 < b.orbs.length → OffsetsConverge vp b 0 4 0) ∧
      (1 < b.orbs.length → OffsetsConverge vp b 1 6 0) ∧
      (2 < b.orbs.length → OffsetsConverge vp b 2 (5 / 2) 0)) ∧
    (b.targetX = vp.innerWidth / 2 → b.targetY = vp.innerHeight / 2 →
      ∀ i : Nat, i < b.orbs.length → OffsetsConverge vp b i 0 0) := by
  have c0 : (orbConfigAt 0).sensitivity = 4 / 100 := rfl
  have c1 : (orbConfigAt 1).sensitivity = 6 / 100 := rfl
  have c2 : (orbConfigAt 2).sensitivity = 25 / 1000 := rfl
  refine ⟨⟨c0, c1, c2, orbConfigAt_fallback⟩, offsets_converge vp b, ?_, ?_⟩
  · intro hx hy
    refine ⟨fun h => ?_, fun h => ?_, fun h => ?_⟩
    · have k := offsets_converge vp b 0 h
      rw [hx, hy, c0] at k
      norm_num at k
      exact k
    · have k := offsets_converge vp b 1 h
      rw [hx, hy, c1] at k
      norm_num at k
      exact k
    · have k := offsets_converge vp b 2 h
      rw [hx, hy, c2] at k
      norm_num at k
      exact k
  · intro hx hy i h
    have k := offsets_converge vp b i h
    rw [hx, hy] at k
    simpa using k

/-- Witness of C7: three orbs in a 1000 by 800 viewport, pointer target 100
pixels to the right of the centre; the offset of the second orb tends to
`(6, 0)`. -/
theorem parallax_offsets_witness :
    OffsetsConverge { innerWidth := 1000, innerHeight := 800 }
      { mouseX := 500, mouseY := 400, targetX := 600, targetY := 400,
        orbs := [ { mouseXVar := none, mouseYVar := none },
                  { mouseXVar := none, mouseYVar := none },
                  { mouseXVar := none, mouseYVar := none } ] } 1 6 0 :=
  ((parallax_offsets { innerWidth := 1000, innerHeight := 800 }
      { mouseX := 500, mouseY := 400, targetX := 600, targetY := 400,
        orbs := [ { mouseXVar := none, mouseYVar := none },
                  { mouseXVar := none, mouseYVar := none },
                  { mouseXVar := none, mouseYVar := none } ] }).2.2.1
    (by norm_num) (by norm_num)).2.1 (by decide)

/-! ## Scroll reveal -/

theorem onEntry_classList_of_visible (s : RevealState) (e : IntersectionEntry) (el : Nat)
    (h : s.visible el = true) : (onEntry s e).classList el = s.classList el := by
  unfold onEntry
  by_cases hi : e.isIntersecting = true
  · rw [if_pos hi]
    show (if el = e.target then (s.classList el).add "visible" else s.classList el) = _
    by_cases ht : el = e.target
    · rw [if_pos ht]
      exact ClassList.add_of_contains _ _ h
    · rw [if_neg ht]
  · rw [if_neg hi]

theorem onEntry_classList_of_ne (s : RevealState) (e : IntersectionEntry) (el : Nat)
    (h : ¬ (e.isIntersecting = true ∧ el = e.target)) :
    (onEntry s e).classList el = s.classList el := by
  unfold onEntry
  by_cases hi : e.isIntersecting = true
  · rw [if_pos hi]
    show (if el = e.target then (s.classList el).add "visible" else s.classList el) = _
    rw [if_neg (fun ht => h ⟨hi, ht⟩)]
  · rw [if_neg hi]

theorem onEntry_not_observed (s : RevealState) (e : IntersectionEntry) (el : Nat)
    (h : el ∉ s.observed) : el ∉ (onEntry s e).observed := by
  unfold onEntry
  by_cases hi : e.isIntersecting = true
  · rw [if_pos hi]
    show el ∉ s.observed.filter (fun x => decide (x ≠ e.target))
    intro hmem
    exact h (List.mem_filter.mp hmem).1
  · rw [if_neg hi]
    exact h

theorem onEntry_hit (s : RevealState) (e : IntersectionEntry) (hi : e.isIntersecting = true) :
    (onEntry s e).visible e.target = true ∧ e.target ∉ (onEntry s e).observed := by
  unfold onEntry
  rw [if_pos hi]
  constructor
  · show ClassList.contains (if e.target = e.target then (s.classList e.target).add "visible"
        else s.classList e.target) "visible" = true
    rw [if_pos rfl]
    exact ClassList.contains_add _ _
  · show e.target ∉ s.observed.filter (fun x => decide (x ≠ e.target))
    intro hmem
    have := (List.mem_filter.mp hmem).2
    simp at this

theorem callback_classList_of_visible (entries : List IntersectionEntry) (el : Nat) :
    ∀ s : RevealState, s.visible el = true →
      (observerCallback s entries).classList el = s.classList el := by
  induction entries with
  | nil => intro s _; rfl
  | cons e es ih =>
    intro s h
    have h1 := onEntry_classList_of_visible s e el h
    have h2 : (onEntry s e).visible el = true := by
      unfold RevealState.visible
      rw [h1]
      exact h
    show (observerCallback (onEntry s e) es).classList el = _
    rw [ih _ h2, h1]

theorem callback_not_observed (entries : List IntersectionEntry) (el : Nat) :
    ∀ s : RevealState, el ∉ s.observed → el ∉ (observerCallback s entries).observed := by
  induction entries with
  | nil => intro s h; exact h
  | cons e es ih =>
    intro s h
    exact ih _ (onEntry_not_observed s e el h)

theorem callback_pending_or_unobserved (entries : List IntersectionEntry) (el : Nat) :
    ∀ s : RevealState, s.visible el = false ∨ el ∉ s.observed →
      (observerCallback s entries).visible el = false ∨
        el ∉ (observerCallback s entries).observed := by
  induction entries with
  | nil => intro s h; exact h
  | cons e es ih =>
    intro s h
    apply ih
    rcases h with h | h
    · by_cases hit : e.isIntersecting = true ∧ el = e.target
      · right
        rw [hit.2]
        exact (onEntry_hit s e hit.1).2
      · left
        unfold RevealState.visible
        rw [onEntry_classList_of_ne s e el hit]
        exact h
    · exact Or.inr (onEntry_not_observed s e el h)

theorem callback_hit (entries : List IntersectionEntry) (e : IntersectionEntry)
    (hi : e.isIntersecting = true) :
    ∀ s : RevealState, e ∈ entries →
      (observerCallback s entries).visible e.target = true ∧
        e.target ∉ (observerCallback s entries).observed := by
  induction entries with
  | nil => intro s h; simp at h
  | cons x xs ih =>
    intro s h
    rcases List.mem_cons.mp h with h | h
    · subst h
      have k := onEntry_hit s e hi
      constructor
      · show ClassList.contains ((observerCallback (onEntry s e) xs).classList e.target)
            "visible" = true
        rw [callback_classList_of_visible xs e.target _ k.1]
        exact k.1
      · exact callback_not_observed xs e.target _ k.2
    · exact ih _ h

theorem run_classList_of_visible (callbacks : List (List IntersectionEntry)) (el : Nat) :
    ∀ s : RevealState, s.visible el = true →
      (runCallbacks s callbacks).classList el = s.classList el := by
  induction callbacks with
  | nil => intro s _; rfl
  | cons c cs ih =>
    intro s h
    have h1 := callback_classList_of_visible c el s h
    have h2 : (observerCallback s c).visible el = true := by
      unfold RevealState.visible
      rw [h1]
      exact h
    show (runCallbacks (observerCallback s c) cs).classList el = _
    rw [ih _ h2, h1]

theorem run_not_observed (callbacks : List (List IntersectionEntry)) (el : Nat) :
    ∀ s : RevealState, el ∉ s.observed → el ∉ (runCallbacks s callbacks).observed := by
  induction callbacks with
  | nil => intro s h; exact h
  | cons c cs ih =>
    intro s h
    exact ih _ (callback_not_observed c el s h)

theorem run_append (s : RevealState) (cs ds : List (List IntersectionEntry)) :
    runCallbacks s (cs ++ ds) = runCallbacks (runCallbacks s cs) ds := by
  unfold runCallbacks
  exact List.foldl_append _ _ _ _

/-- C8. Along every sequence of observer callbacks: an element with the
`visible` flag keeps it, and its class list is not changed again (a later
re-entry into view changes nothing); an element that is not watched stays
unwatched; an element that a callback turns visible is out of the watch set
at the end of that callback, and so is the target of every intersecting
entry; hence along the prefixes of the sequence the flag, once set, stays
set, so that it changes at most once, from not visible to visible. -/
theorem reveal_monotone (s : RevealState) (callbacks : List (List IntersectionEntry))
    (entries : List IntersectionEntry) (el : Nat) :
    (s.visible el = true → (observerCallback s entries).visible el = true) ∧
    (s.visible el = true → (runCallbacks s callbacks).visible el = true ∧
      (runCallbacks s callbacks).classList el = s.classList el) ∧
    (el ∉ s.observed → el ∉ (runCallbacks s callbacks).observed) ∧
    (s.visible el = false → (observerCallback s entries).visible el = true →
      el ∉ (observerCallback s entries).observed) ∧
    (∀ e : IntersectionEntry, e ∈ entries → e.isIntersecting = true →
      (observerCallback s entries).visible e.target = true ∧
        e.target ∉ (observerCallback s entries).observed) ∧
    (∀ i j : Nat, i ≤ j → (runCallbacks s (callbacks.take i)).visible el = true →
      (runCallbacks s (callbacks.take j)).visible el = true) := by
  have hrun : ∀ (t : RevealState) (cs : List (List IntersectionEntry)),
      t.visible el = true → (runCallbacks t cs).visible el = true := by
    intro t cs h
    unfold RevealState.visible
    rw [run_classList_of_visible cs el t h]
    exact h
  refine ⟨?_, ?_, run_not_observed callbacks el s, ?_, ?_, ?_⟩
  · intro h
    unfold RevealState.visible
    rw [callback_classList_of_visible entries el s h]
    exact h
  · intro h
    exact ⟨hrun s callbacks h, run_classList_of_visible callbacks el s h⟩
  · intro h1 h2
    rcases callback_pending_or_unobserved entries el s (Or.inl h1) with k | k
    · rw [k] at h2
      exact absurd h2 (by decide)
    · exact k
  · intro e he hi
    exact callback_hit entries e hi s he
  · intro i j hij h
    have e : callbacks.take j = callbacks.take i ++ (callbacks.take j).drop i := by
      have := List.take_append_drop i (callbacks.take j)
      rw [List.take_take, Nat.min_eq_left hij] at this
      exact this.symm
    rw [e, run_append]
    exact hrun _ _ h

/-- Witness of C8: element 1 enters the view, leaves it and enters it again. -/
theorem reveal_monotone_witness :
    (runCallbacks { classList := fun _ => ["fade-in-up", "visible"], observed := [2] }
        [[{ target := 1, isIntersecting := false }], [{ target := 1, isIntersecting := true }]]
      ).classList 1 = ["fade-in-up", "visible"] ∧
    1 ∉ (observerCallback { classList := fun _ => ["fade-in-up"], observed := [1, 2] }
        [{ target := 1, isIntersecting := true }]).observed :=
  ⟨((reveal_monotone { classList := fun _ => ["fade-in-up", "visible"], observed := [2] }
        [[{ target := 1, isIntersecting := false }], [{ target := 1, isIntersecting := true }]]
        [] 1).2.1 (by decide)).2,
   (reveal_monotone { classList := fun _ => ["fade-in-up"], observed := [1, 2] } []
        [{ target := 1, isIntersecting := true }] 1).2.2.2.1 (by decide) (by decide)⟩

end Proxity
